import Mathlib

/-!
Verification of the binanza trading engine (`binanza.py`).

Shallow embedding conventions:
* Python `Decimal` values are modelled as exact rationals (`ℚ`).  The global
  decimal context precision (`getcontext().prec`, which rounds every arithmetic
  result to a number of significant digits) is not modelled; all arithmetic
  here is exact.
* A Python `Decimal` constructed from a float literal (e.g. `Decimal(0.2)`)
  equals the IEEE-754 double nearest to that literal, an exact rational with a
  power-of-two denominator.  Those rationals appear below as named constants.
* Fallible code is embedded in `Except PyErr`; a `while` loop becomes a
  recursive function whose guard carries the positivity conditions under which
  the Python loop terminates (executions on which the Python loop would never
  terminate are outside every statement proved below).
* External collaborators (the Binance client, TA-Lib pattern functions, the
  SQLite store, SMTP) enter as function-typed parameters or per-cycle
  observation records.
-/

namespace Binanza

/-- Python runtime errors that the embedded code can raise. -/
inductive PyErr where
  | typeError
  | nameError
  | apiError (msg : String)
deriving DecidableEq, Repr

/-- The value of the Python expression `Decimal(0.2)` (binanza.py line 329):
the float literal `0.2` is the IEEE-754 double `3602879701896397 / 2^54`,
slightly above `1/5`. -/
def Decimal_0_2 : ℚ := 3602879701896397 / 2 ^ 54

/-- The value of the Python expression `Decimal(1.0005)` (binanza.py lines
450 and 472): the float literal `1.0005` is the IEEE-754 double
`4505851427184181 / 2^52`, slightly below `10005/10000`. -/
def Decimal_1_0005 : ℚ := 4505851427184181 / 2 ^ 52

/-- The value of the Python float literal `0.001` compared against in
binanza.py line 545: the IEEE-754 double `1152921504606847 / 2^60`, slightly
above `1/1000`. -/
def Float_0_001 : ℚ := 1152921504606847 / 2 ^ 60

/-- Embedding of the Python ratchet loop `while (a < target): a += step`
starting from `a = start` (binanza.py lines 520-521 for the price, lines
532-533 for the quantity).  The guard also requires `0 < step`, which is
exactly the condition under which the Python loop terminates for `start <
target`; when `step ≤ 0` and `start < target` the Python loop never
terminates and the embedding returns `start`. -/
def ratchet (start target step : ℚ) : ℚ :=
  if h : 0 < step ∧ start < target then ratchet (start + step) target step else start
termination_by (⌈(target - start) / step⌉).toNat
decreasing_by
  obtain ⟨hstep, hlt⟩ := h
  have h1 : (target - (start + step)) / step = (target - start) / step - 1 := by
    rw [show target - (start + step) = target - start - step by ring, sub_div,
      div_self (ne_of_gt hstep)]
  have h2 : (0:ℚ) < (target - start) / step := div_pos (by linarith) hstep
  have h3 : 0 < ⌈(target - start) / step⌉ := Int.ceil_pos.mpr h2
  rw [h1, Int.ceil_sub_one]
  omega

/-! ### Order Normalizer: `Binanza.check_order` (binanza.py lines 491-548) -/

/-- One entry of a symbol's `filters` list in the exchange info.  The Python
code dispatches on the `filterType` string; filter types other than
`PRICE_FILTER`, `LOT_SIZE` and `MIN_NOTIONAL` are ignored. -/
inductive ExFilter where
  | priceFilter (minPrice tickSize : ℚ)
  | lotSize (minQty stepSize : ℚ)
  | minNotional (minNotional : ℚ)
  | otherFilter
deriving DecidableEq, Repr

/-- One entry of `exchange_info["symbols"]`.  The `baseAssetPrecision` and
`quotePrecision` fields only set the (unmodelled) decimal context and are
omitted. -/
structure SymbolInfo where
  symbol : String
  status : String
  filters : List ExFilter
deriving DecidableEq, Repr

/-- The local variables of `check_order` that the filter loop threads:
`a_quantity`, `a_price` (both initialized to Python `None`) and the
`qty_step` local, which is unbound (`none`) until a `LOT_SIZE` filter has
been processed. -/
structure CState where
  q : Option ℚ
  p : Option ℚ
  step : Option ℚ
deriving DecidableEq, Repr

/-- Processing of one filter inside the `for f in s["filters"]` loop of
`check_order` (binanza.py lines 511-541), acting on the loop state.
`PRICE_FILTER` restarts the price ratchet from `minPrice`; `LOT_SIZE`
ratchets the quantity from `minQty` (or from the current quantity when one
is already set) and binds `qty_step`; `MIN_NOTIONAL` lifts the quantity to
`minNotional` when it is unset or below it. -/
def processFilter (qty price : ℚ) (st : CState) : ExFilter → CState
  | .priceFilter m t => { st with p := some (ratchet m price t) }
  | .lotSize mq stp =>
      { st with q := some (ratchet (st.q.getD mq) qty stp), step := some stp }
  | .minNotional n =>
      { st with q := some (match st.q with
          | none => n
          | some q => if q < n then n else q) }
  | .otherFilter => st

/-- The whole filter loop of `check_order`, left to right. -/
def processFilters (qty price : ℚ) (st : CState) (fs : List ExFilter) : CState :=
  fs.foldl (processFilter qty price) st

/-- Embedding of the loop `while(a_quantity * a_price < 0.001): a_quantity +=
qty_step` (binanza.py lines 545-546).  The extra guard `0 < step ∧ 0 < p` is
the condition under which the Python loop terminates when entered. -/
def notionalRatchet (q p step : ℚ) : ℚ :=
  if h : 0 < step ∧ 0 < p ∧ q * p < Float_0_001 then
    notionalRatchet (q + step) p step
  else q
termination_by (⌈(Float_0_001 / p - q) / step⌉).toNat
decreasing_by
  obtain ⟨hstep, hp, hqp⟩ := h
  have h1 : (Float_0_001 / p - (q + step)) / step
      = (Float_0_001 / p - q) / step - 1 := by
    rw [show Float_0_001 / p - (q + step) = Float_0_001 / p - q - step by ring,
      sub_div, div_self (ne_of_gt hstep)]
  have hq : q < Float_0_001 / p := (lt_div_iff hp).mpr hqp
  have h2 : (0:ℚ) < (Float_0_001 / p - q) / step := div_pos (by linarith) hstep
  have h3 : 0 < ⌈(Float_0_001 / p - q) / step⌉ := Int.ceil_pos.mpr h2
  rw [h1, Int.ceil_sub_one]
  omega

/-- The `if (symbol.endswith("BTC") or symbol.endswith("ETH"))` block of
`check_order` (binanza.py lines 543-546).  Evaluating `a_quantity * a_price`
with either operand `None` raises a Python `TypeError`; entering the loop
body with `qty_step` never assigned raises a `NameError`. -/
def btcEthFix (q? p? step? : Option ℚ) : Except PyErr (Option ℚ) :=
  match q?, p? with
  | some q, some p =>
      if q * p < Float_0_001 then
        match step? with
        | none => .error .nameError
        | some step => .ok (some (notionalRatchet q p step))
      else .ok (some q)
  | _, _ => .error .typeError

/-- Python's `str.endswith`, over the character list of the string. -/
def pyEndsWith (s suffix : String) : Bool :=
  suffix.data.isSuffixOf s.data

/-- The condition `symbol.endswith("BTC") or symbol.endswith("ETH")`. -/
def endsBtcEth (symbol : String) : Bool :=
  pyEndsWith symbol "BTC" || pyEndsWith symbol "ETH"

/-- The `for s in self.exchange_info["symbols"]` loop of `check_order`:
non-matching entries are skipped, a matching non-`TRADING` entry returns
`(None, None)` immediately, a matching `TRADING` entry runs the filter loop
and (for symbols quoted in BTC or ETH) the extra notional fix, and the
accumulated `(a_quantity, a_price)` is returned after the loop. -/
def checkOrderLoop (sym : String) (qty price : ℚ) :
    CState → List SymbolInfo → Except PyErr (Option ℚ × Option ℚ)
  | st, [] => .ok (st.q, st.p)
  | st, s :: rest =>
      if s.symbol ≠ sym then checkOrderLoop sym qty price st rest
      else if s.status ≠ "TRADING" then .ok (none, none)
      else
        let st' := processFilters qty price st s.filters
        if endsBtcEth sym then
          match btcEthFix st'.q st'.p st'.step with
          | .error e => .error e
          | .ok q' => checkOrderLoop sym qty price { st' with q := q' } rest
        else checkOrderLoop sym qty price st' rest

/-- Embedding of `Binanza.check_order(symbol, quantity, price)` (binanza.py
lines 491-548) as a function of the exchange info. -/
def check_order (info : List SymbolInfo) (symbol : String) (quantity price : ℚ) :
    Except PyErr (Option ℚ × Option ℚ) :=
  checkOrderLoop symbol quantity price ⟨none, none, none⟩ info

/-- The parameters of the last `PRICE_FILTER` entry of a filter list (each
`PRICE_FILTER` restarts the price computation, so the last one decides the
returned price). -/
def lastPriceFilter : List ExFilter → Option (ℚ × ℚ)
  | [] => none
  | f :: rest =>
      match lastPriceFilter rest with
      | some mt => some mt
      | none =>
          match f with
          | .priceFilter m t => some (m, t)
          | _ => none

/-- Whether a filter list contains a `PRICE_FILTER` entry. -/
def hasPriceFilter (fs : List ExFilter) : Bool :=
  fs.any fun f =>
    match f with
    | .priceFilter _ _ => true
    | _ => false

/-- Whether a filter list contains an entry that can set the quantity
(`LOT_SIZE` or `MIN_NOTIONAL`). -/
def hasQtyFilter (fs : List ExFilter) : Bool :=
  fs.any fun f =>
    match f with
    | .lotSize _ _ => true
    | .minNotional _ => true
    | _ => false

/-! ### Signal Aggregator: `Binanza.analyze_candles` (binanza.py lines 304-373) -/

/-- One candlestick row as returned by the Binance API.  The Python code uses
index 1 (open), 2 (high), 3 (low), 4 (close) and 5 (volume); the remaining
row entries are never read and are omitted. -/
structure Candle where
  open_ : ℚ
  high : ℚ
  low : ℚ
  close : ℚ
  volume : ℚ
deriving DecidableEq, Repr

/-- The `inputs` dict of numpy arrays built in `analyze_candles` (binanza.py
lines 333-346).  The conversion of each `Decimal` to `np.float64` is not
modelled; values stay exact rationals. -/
structure CandleInputs where
  open_ : List ℚ
  high : List ℚ
  low : List ℚ
  close : List ℚ
  volume : List ℚ
deriving DecidableEq, Repr

/-- The volume trim at the top of `analyze_candles` (binanza.py lines
326-330): when there are at least two candles and the last volume is below
`previous_volume * Decimal(0.2)`, the last candle is deleted from the
caller's list (`del candles[-1]`). -/
def trimCandles (candles : List Candle) : List Candle :=
  if 1 < candles.length then
    if ((candles.getLast?).map Candle.volume).getD 0 <
        ((candles[candles.length - 2]?).map Candle.volume).getD 0 * Decimal_0_2 then
      candles.dropLast
    else candles
  else candles

/-- Extraction of the per-field arrays (binanza.py lines 333-346). -/
def mkInputs (candles : List Candle) : CandleInputs :=
  ⟨candles.map Candle.open_, candles.map Candle.high, candles.map Candle.low,
    candles.map Candle.close, candles.map Candle.volume⟩

/-- One registered candlestick pattern: the TA-Lib recognition function
(external, so kept abstract as a function from the inputs to one value per
bin) and its list of validator closures.  Every pattern registered in
`Binanza.__init__` (binanza.py lines 183-256) carries a `validators` key, so
the `validators is None` branch of line 358 never fires and validators are
modelled as a plain list. -/
structure CdlPattern where
  f : CandleInputs → List ℚ
  validators : List (ℚ → List Candle → Bool)

/-- The body of the `for pattern in self.patterns` loop of `analyze_candles`
(binanza.py lines 352-363), threading `(sum_indication,
recognized_patterns)`.  `indication` is the last bin of the pattern
function's output (`analyses[pattern][-1]`). -/
def analyzeStep (inputs : CandleInputs) (candles : List Candle)
    (acc : ℚ × List (String × ℚ)) (np : String × CdlPattern) :
    ℚ × List (String × ℚ) :=
  let indication := ((np.2.f inputs).getLast?).getD 0
  if indication ≠ 0 ∧ np.2.validators.all (fun v => v indication candles) then
    (acc.1 + indication, acc.2 ++ [(np.1, indication)])
  else acc

/-- The result dict of `analyze_candles`.  The extra `candles` field records
the caller-visible candle list after the in-place trim of line 330 (the
Python function mutates its argument). -/
structure AnalyzeResult where
  candles : List Candle
  inputs : CandleInputs
  indication : ℚ
  patterns : List (String × ℚ)

/-- Embedding of `Binanza.analyze_candles(candles)` (binanza.py lines
304-373), with the pattern registry as an explicit parameter.  The mean of
line 364 divides by `len(self.patterns)`, the number of registered patterns
(division by zero yields 0 in `ℚ`; the real registry has 18 entries). -/
def analyze_candles (patterns : List (String × CdlPattern))
    (candles0 : List Candle) : AnalyzeResult :=
  let candles := trimCandles candles0
  let inputs := mkInputs candles
  let r := patterns.foldl (analyzeStep inputs candles) (0, [])
  ⟨candles, inputs, r.1 / (patterns.length : ℚ), r.2⟩

/-- Modelled from the spec (§4.2, §8): the last-bin value of a pattern. -/
def specLastBin (inputs : CandleInputs) (p : CdlPattern) : ℚ :=
  ((p.f inputs).getLast?).getD 0

/-- Modelled from the spec (§4.2, §8): a pattern is counted when its
last-bin value is nonzero and all its validators pass. -/
def specCounted (inputs : CandleInputs) (candles : List Candle)
    (np : String × CdlPattern) : Bool :=
  specLastBin inputs np.2 != 0 &&
    np.2.validators.all (fun v => v (specLastBin inputs np.2) candles)

/-- Modelled from the spec (§4.2, §8): the sum of the last-bin values of the
counted patterns. -/
def specCountedSum (patterns : List (String × CdlPattern))
    (inputs : CandleInputs) (candles : List Candle) : ℚ :=
  ((patterns.filter (specCounted inputs candles)).map
    (fun np => specLastBin inputs np.2)).sum

/-- Modelled from the spec (§4.2): the list of counted pattern matches. -/
def specCountedList (patterns : List (String × CdlPattern))
    (inputs : CandleInputs) (candles : List Candle) : List (String × ℚ) :=
  (patterns.filter (specCounted inputs candles)).map
    (fun np => (np.1, specLastBin inputs np.2))

/-! ### Balance Guard: `Binanza.balance_is_ok` (binanza.py lines 375-390) -/

/-- Embedding of `Binanza.balance_is_ok(symbol, quantity)`.  `balances`
models `self.balances` (every queried symbol is populated, absent assets as
`0`, binanza.py lines 294-302); `min_balance` models the optional
per-symbol minimum (`symbol in self.min_balance` becomes `isSome`). -/
def balance_is_ok (balances : String → ℚ) (min_balance : String → Option ℚ)
    (symbol : String) (quantity : ℚ) : Bool :=
  if decide (balances symbol < quantity) ||
      (match min_balance symbol with
        | some m => decide (balances symbol < m)
        | none => false) then
    false
  else true

/-! ### Price Sanity Guard: `Binanza.get_order_average`,
`Binanza.buy_price_is_right`, `Binanza.sell_price_is_right`
(binanza.py lines 396-475) -/

/-- One historical order as returned by `client.get_all_orders`.  `time` is
a millisecond timestamp. -/
structure HOrder where
  time : ℚ
  side : String
  status : String
  price : ℚ
  executedQty : ℚ
deriving DecidableEq, Repr

/-- The result dict of `get_order_average`. -/
structure OrderAvg where
  avg : ℚ
  count : ℕ
deriving DecidableEq, Repr

/-- Embedding of `Binanza.seconds_to_days(seconds)` (binanza.py lines
392-394). -/
def seconds_to_days (seconds : ℚ) : ℚ :=
  seconds / 60 / 60 / 24

/-- The qualification test of binanza.py line 421: order age below the
`days` bound when one is given, matching side, and status
`PARTIALLY_FILLED` or `FILLED`.  `now` is the current time in seconds;
order ages are `now - time/1000` seconds as in lines 418-420. -/
def qualifies (side : String) (days : Option ℚ) (now : ℚ) (o : HOrder) : Bool :=
  (match days with
    | none => true
    | some d => decide (seconds_to_days (now - o.time / 1000) < d)) &&
  o.side == side &&
  (o.status == "PARTIALLY_FILLED" || o.status == "FILLED")

/-- The accumulator update of binanza.py lines 421-424. -/
def orderAvgStep (side : String) (days : Option ℚ) (now : ℚ)
    (acc : ℚ × ℚ × ℕ) (o : HOrder) : ℚ × ℚ × ℕ :=
  if qualifies side days now o then
    (acc.1 + o.price * o.executedQty, acc.2.1 + o.executedQty, acc.2.2 + 1)
  else acc

/-- Embedding of `Binanza.get_order_average(symbol, side, days)` (binanza.py
lines 396-431), with the account's order history and the current time as
explicit parameters.  The average is notional sum over filled quantity, or
`0` when no quantity was filled (line 427). -/
def get_order_average (orders : List HOrder) (side : String) (days : Option ℚ)
    (now : ℚ) : OrderAvg :=
  let acc := orders.foldl (orderAvgStep side days now) (0, 0, 0)
  ⟨if 0 < acc.2.1 then acc.1 / acc.2.1 else 0, acc.2.2⟩

/-- One configured symbol pair.  Optional per-pair keys of the config dict
(`buy_order_check`, `sell_order_check`, `check_days`) become `Option`
fields; `dict` membership becomes `isSome`. -/
structure SymbolPair where
  base : String
  quote : String
  buy_order_check : Option Bool
  sell_order_check : Option Bool
  check_days : Option ℚ
deriving DecidableEq, Repr

/-- Embedding of `Binanza.buy_price_is_right(symbol_pair, price, min_orders)`
(binanza.py lines 433-453).  The buy guard compares against recent `SELL`
orders with no default lookback (`days = None` when `check_days` is
absent). -/
def buy_price_is_right (orders : List HOrder) (now : ℚ) (sp : SymbolPair)
    (price : ℚ) (min_orders : ℕ) : Bool :=
  if sp.buy_order_check == some false then true
  else
    let order_history := get_order_average orders "SELL" sp.check_days now
    if order_history.count = 0 then true
    else if min_orders ≤ order_history.count ∧
        order_history.avg * Decimal_1_0005 < price then false
    else true

/-- Embedding of `Binanza.sell_price_is_right(symbol_pair, price,
min_orders)` (binanza.py lines 455-475).  The sell guard compares against
recent `BUY` orders with a default lookback of 7 days. -/
def sell_price_is_right (orders : List HOrder) (now : ℚ) (sp : SymbolPair)
    (price : ℚ) (min_orders : ℕ) : Bool :=
  if sp.sell_order_check == some false then true
  else
    let order_history := get_order_average orders "BUY"
      (some (sp.check_days.getD 7)) now
    if order_history.count = 0 then true
    else if min_orders ≤ order_history.count ∧
        price < order_history.avg * Decimal_1_0005 then false
    else true

/-! ### Stale Order Reaper: `Binanza.cancel_stale_orders`
(binanza.py lines 550-567) -/

/-- One open order as returned by `client.get_open_orders`; `time` is a
millisecond timestamp. -/
structure OpenOrder where
  orderId : ℕ
  time : ℚ
deriving DecidableEq, Repr

/-- Embedding of `Binanza.cancel_stale_orders(symbol)` (binanza.py lines
550-567).  `cancel` models `client.cancel_order` for the fixed symbol: the
exchange either accepts the cancel or raises a `BinanceAPIException`
(`PyErr.apiError`), e.g. when the order is already filled or cancelled.
The function body contains no exception handling, so a raised error
propagates immediately; on success the cancelled orders are returned in
order.  The `db.delete_order` persistence call has no observable effect
here and is not modelled. -/
def cancel_stale_orders (cancel : ℕ → Except PyErr Unit) (order_lifetime : ℚ)
    (now : ℚ) : List OpenOrder → Except PyErr (List OpenOrder)
  | [] => .ok []
  | o :: rest =>
      if order_lifetime < now - o.time / 1000 then
        match cancel o.orderId with
        | .error e => .error e
        | .ok _ =>
            match cancel_stale_orders cancel order_lifetime now rest with
            | .error e => .error e
            | .ok cancelled => .ok (o :: cancelled)
      else cancel_stale_orders cancel order_lifetime now rest

/-! ### Error-mail policy of the trade cycle (binanza.py lines 722-735)

The cycle body itself (network, logging, SQLite) is external I/O; what the
claims about notification need is the per-cycle mail decision, which is a
pure function of the observable flags of that cycle: whether the last-run
log contains an order line (`Log.has_order`), whether it contains an error
line (`Log.has_errors`), and whether the cycle body raised (entering the
`except` block at line 729). -/

/-- Observable outcome of one iteration of the `while (run)` loop in
`Binanza.trade`.  `time` is the wall-clock second at which the cycle's mail
decision runs; consecutive continuous-mode cycles are `sleep_duration`
(default 300) seconds apart. -/
structure CycleLog where
  time : ℚ
  hasOrder : Bool
  hasErrors : Bool
  raised : Bool
deriving DecidableEq, Repr

/-- The mail configuration: whether `self.gmail` is set and how many
recipients `errors_to_mail` and `orders_to_mail` hold. -/
structure MailCfg where
  gmailConfigured : Bool
  errorsToMail : ℕ
  ordersToMail : ℕ
deriving DecidableEq, Repr

/-- Number of error-notification mails sent by one cycle (binanza.py lines
722-735): when the body raises, the `except` block mails the error log once
if the log has errors and mail is configured (lines 733-735); otherwise the
end of the `try` block does the same (lines 725-727). -/
def errorMailsInCycle (cfg : MailCfg) (c : CycleLog) : ℕ :=
  if c.raised then
    if c.hasErrors && cfg.gmailConfigured && decide (0 < cfg.errorsToMail) then 1
    else 0
  else
    if c.hasErrors && cfg.gmailConfigured && decide (0 < cfg.errorsToMail) then 1
    else 0

/-- Total number of error-notification mails over a run (one entry per
executed cycle, in order). -/
def errorMailsInRun (cfg : MailCfg) (cycles : List CycleLog) : ℕ :=
  (cycles.map (errorMailsInCycle cfg)).sum

/-! ### Loop lemmas -/

/-- The result of the ratchet loop is `start` plus a natural number of steps. -/
theorem ratchet_mem_grid (start target step : ℚ) :
    ∃ k : ℕ, ratchet start target step = start + k * step := by
  induction start, target, step using ratchet.induct with
  | case1 start target step h ih =>
    obtain ⟨k, hk⟩ := ih
    rw [ratchet, dif_pos h]
    exact ⟨k + 1, by push_cast; linarith [hk]⟩
  | case2 start target step h =>
    rw [ratchet, dif_neg h]
    exact ⟨0, by ring⟩

/-- With a positive step the ratchet loop only stops at or above the target. -/
theorem ratchet_ge_target (start target step : ℚ) :
    0 < step → target ≤ ratchet start target step := by
  induction start, target, step using ratchet.induct with
  | case1 start target step h ih =>
    intro hs
    rw [ratchet, dif_pos h]
    exact ih hs
  | case2 start target step h =>
    intro hs
    rw [ratchet, dif_neg h]
    rcases not_and_or.mp h with h' | h'
    · exact absurd hs h'
    · linarith [not_lt.mp h']

/-- The ratchet result is below or at every grid point that is at or above
the target. -/
theorem ratchet_min (start target step : ℚ) :
    0 < step → ∀ (x : ℚ) (k : ℕ), x = start + k * step → target ≤ x →
    ratchet start target step ≤ x := by
  induction start, target, step using ratchet.induct with
  | case1 start target step h ih =>
    intro hs x k hx hxt
    rw [ratchet, dif_pos h]
    obtain ⟨hstep, hlt⟩ := h
    have hkpos : k ≠ 0 := by
      rintro rfl
      rw [Nat.cast_zero, zero_mul, add_zero] at hx
      subst hx
      linarith
    obtain ⟨k', rfl⟩ : ∃ k', k = k' + 1 := ⟨k - 1, by omega⟩
    refine ih hs x k' ?_ hxt
    rw [hx]; push_cast; ring
  | case2 start target step h =>
    intro hs x k hx hxt
    rw [ratchet, dif_neg h]
    have hk : (0:ℚ) ≤ (k : ℚ) * step := by positivity
    rw [hx]; linarith

/-- One iteration of the ratchet loop, as a conditional rewrite. -/
theorem ratchet_go (start target step : ℚ) (h1 : 0 < step) (h2 : start < target) :
    ratchet start target step = ratchet (start + step) target step := by
  rw [ratchet, dif_pos ⟨h1, h2⟩]

/-- Exit of the ratchet loop, as a conditional rewrite. -/
theorem ratchet_stop (start target step : ℚ) (h : ¬ start < target) :
    ratchet start target step = start := by
  rw [ratchet, dif_neg]
  rintro ⟨-, h2⟩
  exact h h2

/-- One iteration of the extra notional loop, as a conditional rewrite. -/
theorem notionalRatchet_go (q p step : ℚ) (h1 : 0 < step) (h2 : 0 < p)
    (h3 : q * p < Float_0_001) :
    notionalRatchet q p step = notionalRatchet (q + step) p step := by
  rw [notionalRatchet, dif_pos ⟨h1, h2, h3⟩]

/-- Exit of the extra notional loop, as a conditional rewrite. -/
theorem notionalRatchet_stop (q p step : ℚ) (h : ¬ q * p < Float_0_001) :
    notionalRatchet q p step = q := by
  rw [notionalRatchet, dif_neg]
  rintro ⟨-, -, h3⟩
  exact h h3

/-! ### Lemmas about the `check_order` symbol loop -/

/-- Entries whose symbol does not match are skipped without touching the
state. -/
theorem checkOrderLoop_no_match (sym : String) (qty price : ℚ) (st : CState)
    (l : List SymbolInfo) (hl : ∀ x ∈ l, x.symbol ≠ sym) :
    checkOrderLoop sym qty price st l = .ok (st.q, st.p) := by
  induction l with
  | nil => rfl
  | cons s rest ih =>
    rw [checkOrderLoop, if_pos (hl s (List.mem_cons_self s rest))]
    exact ih fun x hx => hl x (List.mem_cons_of_mem s hx)

/-- A leading block of non-matching entries can be dropped. -/
theorem checkOrderLoop_skip (sym : String) (qty price : ℚ) (st : CState)
    (pre rest : List SymbolInfo) (hpre : ∀ x ∈ pre, x.symbol ≠ sym) :
    checkOrderLoop sym qty price st (pre ++ rest) =
      checkOrderLoop sym qty price st rest := by
  induction pre with
  | nil => rfl
  | cons s pre' ih =>
    rw [List.cons_append, checkOrderLoop,
      if_pos (hpre s (List.mem_cons_self s pre'))]
    exact ih fun x hx => hpre x (List.mem_cons_of_mem s hx)

/-- The price component of the filter loop is decided by the last
`PRICE_FILTER` entry. -/
theorem processFilters_p (qty price : ℚ) (fs : List ExFilter) :
    ∀ st : CState, (processFilters qty price st fs).p =
      match lastPriceFilter fs with
      | some mt => some (ratchet mt.1 price mt.2)
      | none => st.p := by
  induction fs with
  | nil => intro st; rfl
  | cons f rest ih =>
    intro st
    rw [processFilters, List.foldl_cons, ← processFilters, ih]
    cases hrest : lastPriceFilter rest with
    | some mt => cases f <;> simp [lastPriceFilter, hrest]
    | none => cases f <;> simp [lastPriceFilter, hrest, processFilter]

/-- Without any `PRICE_FILTER` entry, `lastPriceFilter` yields nothing. -/
theorem lastPriceFilter_eq_none (fs : List ExFilter)
    (h : hasPriceFilter fs = false) : lastPriceFilter fs = none := by
  induction fs with
  | nil => rfl
  | cons f rest ih =>
    rw [hasPriceFilter, List.any_cons, Bool.or_eq_false_iff] at h
    have hrest : lastPriceFilter rest = none := ih h.2
    cases f with
    | priceFilter m t => simp at h
    | lotSize mq stp => simp [lastPriceFilter, hrest]
    | minNotional n => simp [lastPriceFilter, hrest]
    | otherFilter => simp [lastPriceFilter, hrest]

/-- Without any `PRICE_FILTER` the filter loop leaves the price unset. -/
theorem processFilters_p_none (qty price : ℚ) (fs : List ExFilter)
    (st : CState) (h : hasPriceFilter fs = false) :
    (processFilters qty price st fs).p = st.p := by
  rw [processFilters_p, lastPriceFilter_eq_none fs h]

/-- Without any `LOT_SIZE` or `MIN_NOTIONAL` the filter loop leaves the
quantity (and the `qty_step` binding) unchanged. -/
theorem processFilters_q_none (qty price : ℚ) (fs : List ExFilter) :
    ∀ st : CState, hasQtyFilter fs = false →
      (processFilters qty price st fs).q = st.q ∧
      (processFilters qty price st fs).step = st.step := by
  induction fs with
  | nil => exact fun st _ => ⟨rfl, rfl⟩
  | cons f rest ih =>
    intro st h
    rw [hasQtyFilter, List.any_cons, Bool.or_eq_false_iff] at h
    rw [processFilters, List.foldl_cons, ← processFilters]
    have h2 := ih (processFilter qty price st f) h.2
    cases f with
    | priceFilter m t => exact h2
    | lotSize mq stp => simp at h
    | minNotional n => simp at h
    | otherFilter => exact h2

/-! ### Claim C2: price ratchet of `check_order` -/

/-- C2: for every desired price and every `PRICE_FILTER` with tick size > 0,
the price returned by `check_order` is the smallest value of the form
`minPrice + k * tickSize` (`k ≥ 0`) that is at or above the desired price;
hence it is never below `minPrice` and is congruent to `minPrice` modulo
the tick size.  Stated for an exchange info list containing exactly one
entry for the symbol (`pre`/`post` hold the other symbols), whose last
`PRICE_FILTER` has parameters `(m, t)`, whenever `check_order` returns with
a price set. -/
theorem check_order_price_is_least_grid_point
    (pre post : List SymbolInfo) (s0 : SymbolInfo) (sym : String)
    (qty price m t p : ℚ) (q? : Option ℚ)
    (hpre : ∀ x ∈ pre, x.symbol ≠ sym)
    (hpost : ∀ x ∈ post, x.symbol ≠ sym)
    (hs0 : s0.symbol = sym)
    (hf : lastPriceFilter s0.filters = some (m, t))
    (ht : 0 < t)
    (hr : check_order (pre ++ s0 :: post) sym qty price = .ok (q?, some p)) :
    (∃ k : ℕ, p = m + k * t) ∧ price ≤ p ∧ m ≤ p ∧
    ∀ x : ℚ, (∃ k : ℕ, x = m + k * t) → price ≤ x → p ≤ x := by
  have hp : p = ratchet m price t := by
    rw [check_order, checkOrderLoop_skip sym qty price _ pre (s0 :: post) hpre,
      checkOrderLoop, if_neg (by simp [hs0])] at hr
    by_cases hstat : s0.status = "TRADING"
    · rw [if_neg (by simp [hstat])] at hr
      have hp' : (processFilters qty price ⟨none, none, none⟩ s0.filters).p =
          some (ratchet m price t) := by
        rw [processFilters_p, hf]
      by_cases hbe : endsBtcEth sym
      · simp only [hbe, if_true] at hr
        cases hfix : btcEthFix (processFilters qty price ⟨none, none, none⟩ s0.filters).q
            (processFilters qty price ⟨none, none, none⟩ s0.filters).p
            (processFilters qty price ⟨none, none, none⟩ s0.filters).step with
        | error e =>
          simp only [hfix] at hr
          exact absurd hr (by simp)
        | ok q'' =>
          simp only [hfix] at hr
          rw [checkOrderLoop_no_match sym qty price _ post hpost] at hr
          simp only [Except.ok.injEq, Prod.mk.injEq] at hr
          have := hr.2
          rw [hp'] at this
          exact (Option.some.injEq ..).mp this.symm
      · simp only [hbe, Bool.false_eq_true, if_false] at hr
        rw [checkOrderLoop_no_match sym qty price _ post hpost] at hr
        simp only [Except.ok.injEq, Prod.mk.injEq] at hr
        have := hr.2
        rw [hp'] at this
        exact (Option.some.injEq ..).mp this.symm
    · rw [if_pos (by simp [hstat])] at hr
      simp at hr
  subst hp
  obtain ⟨k, hk⟩ := ratchet_mem_grid m price t
  refine ⟨⟨k, hk⟩, ratchet_ge_target m price t ht, ?_, ?_⟩
  · rw [hk]
    have : (0:ℚ) ≤ (k : ℚ) * t := by positivity
    linarith
  · rintro x ⟨k', hk'⟩ hxp
    exact ratchet_min m price t ht x k' hk' hxp

/-- Witness for C2: with `minPrice = 1/10`, `tickSize = 1/10` and desired
price `153/1000`, the normalized price is `2/10` (the spec's §8 scenario
scaled by 10^3), and it satisfies the grid properties. -/
theorem check_order_price_is_least_grid_point_witness :
    (∃ k : ℕ, (2:ℚ)/10 = 1/10 + k * (1/10)) ∧ (153:ℚ)/1000 ≤ 2/10 ∧
    (1:ℚ)/10 ≤ 2/10 ∧
    ∀ x : ℚ, (∃ k : ℕ, x = 1/10 + k * (1/10)) → 153/1000 ≤ x → 2/10 ≤ x := by
  have h1 : endsBtcEth "AAAUSD" = false := by decide
  exact check_order_price_is_least_grid_point [] []
    ⟨"AAAUSD", "TRADING", [.priceFilter (1/10) (1/10)]⟩ "AAAUSD"
    1 (153/1000) (1/10) (1/10) (2/10) none
    (by simp) (by simp) rfl rfl (by norm_num)
    (by norm_num [check_order, checkOrderLoop, processFilters, processFilter,
      h1, ratchet_go, ratchet_stop])

/-! ### Claim C1: MIN_NOTIONAL handling of `check_order` -/

/-- C1 counterexample: symbol `AAAUSD`, filters `PRICE_FILTER(minPrice=1/10,
tick=1/10)`, `LOT_SIZE(minQty=2, step=1)`, `MIN_NOTIONAL(1)`, desired
quantity `2`, desired price `1/10`.  The ratcheted quantity is `2` and the
normalized price `1/10`, so quantity × price `= 1/5` is below the minimum
notional `1`; C1 demands the returned quantity be raised to the minimum
notional value `1`, but `check_order` returns `2` unchanged, because line
540 compares the quantity itself (not the notional) against
`minNotional`. -/
theorem check_order_min_notional_cx :
    check_order [⟨"AAAUSD", "TRADING",
      [.priceFilter (1/10) (1/10), .lotSize 2 1, .minNotional 1]⟩]
      "AAAUSD" 2 (1/10) = .ok (some 2, some (1/10)) ∧
    (2:ℚ) * (1/10) < 1 ∧ (2:ℚ) ≠ 1 := by
  have h1 : endsBtcEth "AAAUSD" = false := by decide
  refine ⟨?_, by norm_num, by norm_num⟩
  norm_num [check_order, checkOrderLoop, processFilters, processFilter,
    h1, ratchet_go, ratchet_stop]

/-- C1 amended: for a symbol (not quoted in BTC/ETH) with the canonical
filter order `PRICE_FILTER`, `LOT_SIZE`, `MIN_NOTIONAL`, `check_order`
raises the returned quantity directly to the minimum notional value exactly
when the `LOT_SIZE`-ratcheted quantity itself (not quantity × price) is
below `minNotional`; otherwise the ratcheted quantity is returned
unchanged.  The price is the `PRICE_FILTER` ratchet as in C2. -/
theorem check_order_min_notional_amended
    (pre post : List SymbolInfo) (s0 : SymbolInfo) (sym : String)
    (qty price pm pt mq stp n : ℚ)
    (hpre : ∀ x ∈ pre, x.symbol ≠ sym)
    (hpost : ∀ x ∈ post, x.symbol ≠ sym)
    (hs0 : s0.symbol = sym)
    (hstat : s0.status = "TRADING")
    (hfil : s0.filters = [.priceFilter pm pt, .lotSize mq stp, .minNotional n])
    (hbe : endsBtcEth sym = false) :
    check_order (pre ++ s0 :: post) sym qty price =
      .ok (some (if ratchet mq qty stp < n then n else ratchet mq qty stp),
           some (ratchet pm price pt)) := by
  rw [check_order, checkOrderLoop_skip sym qty price _ pre (s0 :: post) hpre,
    checkOrderLoop, if_neg (by simp [hs0]), if_neg (by simp [hstat])]
  simp only [hbe, Bool.false_eq_true, if_false]
  rw [checkOrderLoop_no_match sym qty price _ post hpost, hfil]
  simp [processFilters, processFilter]

/-- Witness for the amended C1: `LOT_SIZE(minQty=2, step=1)` ratchets a
desired quantity of `3` to `3 ≥ minNotional = 1`, so the quantity is
returned unchanged; the price ratchets from `1/10` to `4/10`. -/
theorem check_order_min_notional_amended_witness :
    check_order [⟨"AAAUSD", "TRADING",
      [.priceFilter (1/10) (1/10), .lotSize 2 1, .minNotional 1]⟩]
      "AAAUSD" 3 (35/100) = .ok (some 3, some (4/10)) := by
  have h := check_order_min_notional_amended [] []
    ⟨"AAAUSD", "TRADING", [.priceFilter (1/10) (1/10), .lotSize 2 1, .minNotional 1]⟩
    "AAAUSD" 3 (35/100) (1/10) (1/10) 2 1 1
    (by simp) (by simp) rfl rfl rfl (by decide)
  rw [List.nil_append] at h
  rw [h]
  norm_num [ratchet_go, ratchet_stop]

/-! ### Claim C3: missing-filter behaviour of `check_order` -/

/-- C3 counterexample: the symbol `AAABTC` is quoted in BTC and its rule
set lacks both `PRICE_FILTER` and `LOT_SIZE`.  C3 asserts `check_order`
never raises and returns with the missing fields `None`; instead the
BTC/ETH notional-fix block (line 545) evaluates `a_quantity * a_price`
with `a_price = None` and raises a `TypeError`. -/
theorem check_order_missing_filter_cx :
    check_order [⟨"AAABTC", "TRADING", [.minNotional 1]⟩] "AAABTC" 5 2 =
      .error .typeError := by
  have h1 : endsBtcEth "AAABTC" = true := by decide
  norm_num [check_order, checkOrderLoop, processFilters, processFilter,
    h1, btcEthFix]

/-- C3 amended: for symbols not quoted in BTC or ETH, `check_order` always
returns normally, and a missing `PRICE_FILTER` leaves the price `None`
while missing `LOT_SIZE`/`MIN_NOTIONAL` leave the quantity `None` (for
BTC/ETH-quoted symbols a missing filter instead raises, per the
counterexample). -/
theorem check_order_missing_filter_amended
    (pre post : List SymbolInfo) (s0 : SymbolInfo) (sym : String)
    (qty price : ℚ)
    (hpre : ∀ x ∈ pre, x.symbol ≠ sym)
    (hpost : ∀ x ∈ post, x.symbol ≠ sym)
    (hs0 : s0.symbol = sym)
    (hbe : endsBtcEth sym = false) :
    ∃ q? p?, check_order (pre ++ s0 :: post) sym qty price = .ok (q?, p?) ∧
      (hasPriceFilter s0.filters = false → p? = none) ∧
      (hasQtyFilter s0.filters = false → q? = none) := by
  by_cases hstat : s0.status = "TRADING"
  · have hco : check_order (pre ++ s0 :: post) sym qty price =
        .ok ((processFilters qty price ⟨none, none, none⟩ s0.filters).q,
             (processFilters qty price ⟨none, none, none⟩ s0.filters).p) := by
      rw [check_order, checkOrderLoop_skip sym qty price _ pre (s0 :: post) hpre,
        checkOrderLoop, if_neg (by simp [hs0]), if_neg (by simp [hstat])]
      simp only [hbe, Bool.false_eq_true, if_false]
      exact checkOrderLoop_no_match sym qty price _ post hpost
    exact ⟨_, _, hco,
      fun h => processFilters_p_none qty price s0.filters _ h,
      fun h => (processFilters_q_none qty price s0.filters _ h).1⟩
  · have hco : check_order (pre ++ s0 :: post) sym qty price = .ok (none, none) := by
      rw [check_order, checkOrderLoop_skip sym qty price _ pre (s0 :: post) hpre,
        checkOrderLoop, if_neg (by simp [hs0]), if_pos (by simp [hstat])]
    exact ⟨none, none, hco, fun _ => rfl, fun _ => rfl⟩

/-- Witness for the amended C3: a non-BTC/ETH symbol whose rule set holds
only a `MIN_NOTIONAL` filter returns normally with no price (and the
quantity set by `MIN_NOTIONAL`). -/
theorem check_order_missing_filter_amended_witness :
    ∃ q? p?, check_order [⟨"AAAUSD", "TRADING", [.minNotional 1]⟩]
        "AAAUSD" 5 2 = .ok (q?, p?) ∧
      (hasPriceFilter [ExFilter.minNotional 1] = false → p? = none) ∧
      (hasQtyFilter [ExFilter.minNotional 1] = false → q? = none) :=
  check_order_missing_filter_amended [] []
    ⟨"AAAUSD", "TRADING", [.minNotional 1]⟩ "AAAUSD" 5 2
    (by simp) (by simp) rfl (by decide)

/-! ### Claim C4: the aggregated indication of `analyze_candles` -/

/-- The loop condition of binanza.py line 358 coincides with the spec-side
counting predicate. -/
theorem specCounted_iff (inputs : CandleInputs) (candles : List Candle)
    (np : String × CdlPattern) :
    specCounted inputs candles np = true ↔
      ((np.2.f inputs).getLast?).getD 0 ≠ 0 ∧
      np.2.validators.all
        (fun v => v (((np.2.f inputs).getLast?).getD 0) candles) = true := by
  simp [specCounted, specLastBin, bne_iff_ne]

/-- The aggregation loop of `analyze_candles` computes the spec-side counted
sum and counted list on top of its accumulator. -/
theorem analyze_foldl (inputs : CandleInputs) (candles : List Candle)
    (ps : List (String × CdlPattern)) :
    ∀ (s : ℚ) (acc : List (String × ℚ)),
    ps.foldl (analyzeStep inputs candles) (s, acc) =
      (s + specCountedSum ps inputs candles,
       acc ++ specCountedList ps inputs candles) := by
  induction ps with
  | nil => intro s acc; simp [specCountedSum, specCountedList]
  | cons np ps ih =>
    intro s acc
    rw [List.foldl_cons]
    by_cases hc : specCounted inputs candles np = true
    · have hstep : analyzeStep inputs candles (s, acc) np =
          (s + specLastBin inputs np.2, acc ++ [(np.1, specLastBin inputs np.2)]) := by
        rw [analyzeStep, if_pos ((specCounted_iff inputs candles np).mp hc)]
        rfl
      rw [hstep, ih]
      have hfil : List.filter (specCounted inputs candles) (np :: ps) =
          np :: List.filter (specCounted inputs candles) ps :=
        List.filter_cons_of_pos hc
      simp [specCountedSum, specCountedList, hfil, add_assoc]
    · have hstep : analyzeStep inputs candles (s, acc) np = (s, acc) := by
        rw [analyzeStep, if_neg]
        intro hcond
        exact hc ((specCounted_iff inputs candles np).mpr hcond)
      rw [hstep, ih]
      have hfil : List.filter (specCounted inputs candles) (np :: ps) =
          List.filter (specCounted inputs candles) ps :=
        List.filter_cons_of_neg (by simpa using hc)
      simp [specCountedSum, specCountedList, hfil]

/-- C4: with the full registry of 18 patterns, the indication returned by
`analyze_candles` is the sum of the last-bin values of the patterns that
are nonzero and pass all their validators, divided by 18 (the number of
registered patterns, not the number of counted ones); in particular it is
exactly 0 when no pattern is counted. -/
theorem analyze_candles_mean
    (patterns : List (String × CdlPattern)) (candles : List Candle)
    (h18 : patterns.length = 18) :
    (analyze_candles patterns candles).indication =
      specCountedSum patterns (mkInputs (trimCandles candles))
        (trimCandles candles) / 18 ∧
    (List.filter (specCounted (mkInputs (trimCandles candles)) (trimCandles candles))
        patterns = [] →
      (analyze_candles patterns candles).indication = 0) := by
  have hind : (analyze_candles patterns candles).indication =
      specCountedSum patterns (mkInputs (trimCandles candles))
        (trimCandles candles) / 18 := by
    show (patterns.foldl
        (analyzeStep (mkInputs (trimCandles candles)) (trimCandles candles))
        (0, [])).1 / (patterns.length : ℚ) = _
    rw [analyze_foldl, h18]
    norm_num
  refine ⟨hind, fun hempty => ?_⟩
  rw [hind, specCountedSum, hempty]
  simp

/-- Witness for C4: a registry of 18 copies of a pattern whose function
always yields a zero last bin counts nothing, so the indication is 0. -/
theorem analyze_candles_mean_witness :
    (analyze_candles (List.replicate 18 ("p", ⟨fun _ => [0], []⟩)) []).indication
      = 0 := by
  refine (analyze_candles_mean (List.replicate 18 ("p", ⟨fun _ => [0], []⟩)) []
    (by simp)).2 (List.filter_eq_nil.mpr ?_)
  intro np hnp
  have hnp' : np = ("p", ⟨fun _ => [0], []⟩) := List.eq_of_mem_replicate hnp
  subst hnp'
  simp [specCounted, specLastBin]

/-! ### Claim C10: in-place trim of the candle window -/

/-- C10 counterexample: with previous volume `5` and last volume `1`, the
last volume is exactly 20% of the previous one — not *below* the 20%
threshold — yet `analyze_candles` deletes the last candle from the
caller's list, because the comparison constant `Decimal(0.2)` is the
IEEE-754 double slightly above `1/5`. -/
theorem analyze_candles_trim_cx :
    (analyze_candles [] [⟨1, 1, 1, 1, 5⟩, ⟨1, 1, 1, 1, 1⟩]).candles
      = [⟨1, 1, 1, 1, 5⟩] ∧
    ¬((1:ℚ) < 20/100 * 5) := by
  constructor
  · show trimCandles [⟨1, 1, 1, 1, 5⟩, ⟨1, 1, 1, 1, 1⟩] = [⟨1, 1, 1, 1, 5⟩]
    norm_num [trimCandles, Decimal_0_2, List.getLast?]
  · norm_num

/-- C10 amended: `analyze_candles` returns (as the caller-visible candle
list) the input with the last candle deleted exactly when there are at
least two candles and the last volume is below `previous volume *
Decimal(0.2)` (the double approximation of the 20% threshold, slightly
above `1/5`); shorter inputs are returned unchanged, and the close array
used downstream (whose last entry prices the order) is drawn from the
trimmed list. -/
theorem analyze_candles_trim_amended (ps : List (String × CdlPattern)) :
    (∀ (cs : List Candle) (a b : Candle),
      (analyze_candles ps (cs ++ [a, b])).candles =
        if b.volume < a.volume * Decimal_0_2 then cs ++ [a] else cs ++ [a, b]) ∧
    (analyze_candles ps []).candles = [] ∧
    (∀ a : Candle, (analyze_candles ps [a]).candles = [a]) ∧
    (∀ cs : List Candle,
      (analyze_candles ps cs).inputs.close =
        ((analyze_candles ps cs).candles).map Candle.close) := by
  have hc : ∀ cs0 : List Candle, (analyze_candles ps cs0).candles = trimCandles cs0 :=
    fun _ => rfl
  refine ⟨?_, rfl, fun a => rfl, fun cs => rfl⟩
  intro cs a b
  rw [hc]
  have h2 : cs ++ [a, b] = (cs ++ [a]) ++ [b] := by simp
  have hlen : 1 < (cs ++ [a, b]).length := by
    simp [List.length_append]
  have hlast : (cs ++ [a, b]).getLast? = some b := by
    rw [h2, List.getLast?_concat]
  have hidx : (cs ++ [a, b])[(cs ++ [a, b]).length - 2]? = some a := by
    have hn : (cs ++ [a, b]).length - 2 = cs.length := by simp
    rw [hn, List.getElem?_append_right (le_refl cs.length)]
    simp
  rw [trimCandles, if_pos hlen, hlast, hidx]
  show (if b.volume < a.volume * Decimal_0_2 then (cs ++ [a, b]).dropLast
      else cs ++ [a, b]) = _
  by_cases hv : b.volume < a.volume * Decimal_0_2
  · rw [if_pos hv, if_pos hv, h2, List.dropLast_concat]
  · rw [if_neg hv, if_neg hv]

/-! ### Claim C5: sparse-history pass of the price sanity guard -/

/-- C5: when the number of qualifying historical opposite-side
filled/partially-filled orders (as counted by `get_order_average` with each
guard's lookback) is below `min_orders`, both `buy_price_is_right` and
`sell_price_is_right` return `True` regardless of the price. -/
theorem price_guard_sparse_passes
    (orders : List HOrder) (now : ℚ) (sp : SymbolPair) (price : ℚ)
    (min_orders : ℕ)
    (hb : (get_order_average orders "SELL" sp.check_days now).count < min_orders)
    (hs : (get_order_average orders "BUY" (some (sp.check_days.getD 7)) now).count
      < min_orders) :
    buy_price_is_right orders now sp price min_orders = true ∧
    sell_price_is_right orders now sp price min_orders = true := by
  constructor
  · simp only [buy_price_is_right]
    split_ifs with h1 h2 h3
    · rfl
    · rfl
    · exact absurd h3.1 (by omega)
    · rfl
  · simp only [sell_price_is_right]
    split_ifs with h1 h2 h3
    · rfl
    · rfl
    · exact absurd h3.1 (by omega)
    · rfl

/-- Witness for C5: with an empty order history (0 qualifying orders, below
the default minimum of 5) both guards pass. -/
theorem price_guard_sparse_passes_witness :
    buy_price_is_right [] 0 ⟨"IOTA", "ETH", none, none, none⟩ 1 5 = true ∧
    sell_price_is_right [] 0 ⟨"IOTA", "ETH", none, none, none⟩ 1 5 = true :=
  price_guard_sparse_passes [] 0 ⟨"IOTA", "ETH", none, none, none⟩ 1 5
    (by norm_num [get_order_average]) (by norm_num [get_order_average])

/-! ### Claim C6: the balance guard -/

/-- C6 counterexample: balance 10, configured minimum 8, order quantity 5.
Execution would leave `10 - 5 = 5 < 8` free, so C6 demands rejection, but
`balance_is_ok` accepts: binanza.py line 386 compares the *current* balance
(10) against the minimum (8), not the post-execution balance. -/
theorem balance_is_ok_cx :
    balance_is_ok (fun _ => 10) (fun _ => some 8) "ETH" 5 = true ∧
    (10:ℚ) - 5 < 8 ∧ ¬((10:ℚ) < 5) := by
  refine ⟨?_, by norm_num, by norm_num⟩
  decide

/-- C6 amended: `balance_is_ok` rejects exactly when the requested quantity
exceeds the current free balance, or a minimum is configured for the asset
and the *current* free balance (not the post-execution balance) is already
below it; an asset with no configured minimum imposes no limit. -/
theorem balance_is_ok_iff (balances : String → ℚ)
    (min_balance : String → Option ℚ) (symbol : String) (quantity : ℚ) :
    balance_is_ok balances min_balance symbol quantity = false ↔
      balances symbol < quantity ∨
      ∃ m, min_balance symbol = some m ∧ balances symbol < m := by
  cases hm : min_balance symbol with
  | none =>
    by_cases hq : balances symbol < quantity <;> simp [balance_is_ok, hm, hq]
  | some m =>
    by_cases hq : balances symbol < quantity <;>
      by_cases hb : balances symbol < m <;>
        simp [balance_is_ok, hm, hq, hb]

/-! ### Claim C7: error-notification throttling -/

/-- C7 counterexample: with gmail configured and one error recipient, two
consecutive continuous-mode cycles (300 seconds apart, well within one
day) whose logs both contain errors each send an error mail: two error
mails within a day, refuting "at most once per day". -/
theorem error_mail_per_cycle_cx :
    errorMailsInRun ⟨true, 1, 1⟩
      [⟨0, false, true, false⟩, ⟨300, false, true, false⟩] = 2 ∧
    (300:ℚ) - 0 < 86400 := by
  exact ⟨by decide, by norm_num⟩

/-- C7 amended: there is no throttling at all — with gmail configured and
at least one error recipient, every cycle whose last-run log contains
errors sends exactly one error mail, regardless of how recently the
previous one was sent. -/
theorem error_mail_no_throttle (cfg : MailCfg) (cycles : List CycleLog)
    (hg : cfg.gmailConfigured = true) (he : 0 < cfg.errorsToMail) :
    errorMailsInRun cfg cycles =
      (cycles.filter (fun c => c.hasErrors)).length := by
  induction cycles with
  | nil => rfl
  | cons c rest ih =>
    have hcell : errorMailsInCycle cfg c = if c.hasErrors = true then 1 else 0 := by
      cases hcr : c.raised <;> cases hce : c.hasErrors <;>
        simp [errorMailsInCycle, hcr, hce, hg, he]
    have hrun : errorMailsInRun cfg (c :: rest) =
        errorMailsInCycle cfg c + errorMailsInRun cfg rest := by
      rw [errorMailsInRun, List.map_cons, List.sum_cons]
      rfl
    rw [hrun, ih, hcell, List.filter_cons]
    by_cases hce : c.hasErrors = true <;> simp [hce] <;> omega

/-- Witness for the amended C7: a two-cycle run (one erroring cycle, one
cycle erroring inside the `except` path) sends one mail per erroring
cycle. -/
theorem error_mail_no_throttle_witness :
    errorMailsInRun ⟨true, 1, 0⟩
      [⟨0, false, true, false⟩, ⟨300, false, true, true⟩] =
      (List.filter (fun c => c.hasErrors)
        ([⟨0, false, true, false⟩, ⟨300, false, true, true⟩] : List CycleLog)).length :=
  error_mail_no_throttle ⟨true, 1, 0⟩
    [⟨0, false, true, false⟩, ⟨300, false, true, true⟩] rfl (by decide)

/-! ### Claim C8: the stale order reaper on already-gone orders -/

/-- C8 counterexample: one open order, 10^6 seconds old (stale for any
reasonable lifetime, here 600 s); the exchange reports the order already
gone and the cancel call raises.  `cancel_stale_orders` has no handler, so
the error propagates out of the reaper instead of being tolerated. -/
theorem cancel_stale_orders_cx :
    cancel_stale_orders (fun _ => .error (.apiError "UNKNOWN_ORDER")) 600 1000000
      [⟨1, 0⟩] = .error (.apiError "UNKNOWN_ORDER") := by
  norm_num [cancel_stale_orders]

/-- C8 amended: the reaper performs no special handling of already-gone
orders — whenever some open order is stale and the exchange rejects every
cancel call with error `e`, `cancel_stale_orders` propagates `e` to its
caller (the cycle's top-level handler). -/
theorem cancel_stale_orders_propagates (e : PyErr)
    (cancel : ℕ → Except PyErr Unit) (order_lifetime now : ℚ)
    (orders : List OpenOrder)
    (hc : ∀ n, cancel n = .error e)
    (hstale : ∃ o ∈ orders, order_lifetime < now - o.time / 1000) :
    cancel_stale_orders cancel order_lifetime now orders = .error e := by
  induction orders with
  | nil =>
    obtain ⟨o, ho, -⟩ := hstale
    exact absurd ho (List.not_mem_nil o)
  | cons o rest ih =>
    rw [cancel_stale_orders]
    by_cases hage : order_lifetime < now - o.time / 1000
    · rw [if_pos hage, hc o.orderId]
    · rw [if_neg hage]
      obtain ⟨o', ho', hstale'⟩ := hstale
      rcases List.mem_cons.mp ho' with rfl | hmem
      · exact absurd hstale' hage
      · exact ih ⟨o', hmem, hstale'⟩

/-- Witness for the amended C8: a stale order whose cancel reports
"already filled" makes the reaper return that error. -/
theorem cancel_stale_orders_propagates_witness :
    cancel_stale_orders (fun _ => .error (.apiError "FILLED")) 600 2000000
      [⟨7, 0⟩] = .error (.apiError "FILLED") :=
  cancel_stale_orders_propagates (.apiError "FILLED") _ 600 2000000 [⟨7, 0⟩]
    (fun _ => rfl) ⟨⟨7, 0⟩, by simp, by norm_num⟩

/-! ### Claim C9: exactness of the comparison constants -/

/-- C9 counterexample: the 20% volume-trim threshold and the 1.0005
sanity-guard tolerance are built with `Decimal` applied to float literals,
so they are binary-float-derived values, not the exact decimals `1/5` and
`10005/10000`. -/
theorem decimal_constants_cx :
    Decimal_0_2 ≠ 1/5 ∧ Decimal_1_0005 ≠ 10005/10000 := by
  constructor <;> norm_num [Decimal_0_2, Decimal_1_0005]

/-- C9 amended: the comparison constants are the IEEE-754 doubles nearest
the literals: within `2^-54`, `2^-52` and `2^-60` of the exact decimals
but not equal to them — the volume-trim threshold sits strictly above
`1/5`, the sanity tolerance strictly below `10005/10000`, and the BTC/ETH
notional floor strictly above `1/1000`. -/
theorem decimal_constants_amended :
    (1:ℚ)/5 < Decimal_0_2 ∧ Decimal_0_2 < 1/5 + 1/2^54 ∧
    Decimal_1_0005 < 10005/10000 ∧ (10005:ℚ)/10000 - 1/2^52 < Decimal_1_0005 ∧
    (1:ℚ)/1000 < Float_0_001 ∧ Float_0_001 < 1/1000 + 1/2^60 := by
  norm_num [Decimal_0_2, Decimal_1_0005, Float_0_001]

end Binanza
